import Mathlib

/-!
Verification of the bfs process-spawning core (`src/Source/xspawn.h`,
`src/Source/util.h`).

The repository snapshot holds only the public headers of the spawning
library; the translation units `xspawn.c` and `util.c` that implement the
declared functions are not part of the snapshot.  Every definition below
whose doc comment starts with `Modelled from the spec:` is therefore a
shallow embedding of the missing implementation, written faithfully from
the specification document and from the doc comments of the headers.
OS behaviour (syscall outcomes, fork success, errno values) is abstracted
into explicit oracle parameters so that the protocol itself is a pure,
executable function.
-/

namespace BfsXspawn

/-- Flag from `enum bfs_spawn_flags` in `xspawn.h`: resolve the executable
via the PATH variable, like execvp(). -/
def BFS_SPAWN_USEPATH : Nat := 1

/-- Modelled from the spec: the tagged Action variants of a spawn plan
(`struct bfs_spawn_action` in the missing `xspawn.c`): CloseFd, Dup2,
Chdir-by-descriptor, SetResourceLimit. -/
inductive SpawnAction where
  | close (fd : Nat)
  | dup2 (oldfd newfd : Nat)
  | fchdir (fd : Nat)
  | setrlimit (resource soft hard : Nat)
deriving DecidableEq, Repr

/-- The spawn context of `struct bfs_spawn` (`xspawn.h`): a flag set plus the
ordered action sequence.  The C struct keeps a singly linked list with a tail
pointer; its FIFO contents are embedded as a Lean list in insertion order. -/
structure BfsSpawn where
  flags : Nat
  actions : List SpawnAction
deriving DecidableEq, Repr

/-- `bfs_spawn_init`: a freshly created context has no flags and no actions. -/
def bfs_spawn_init : BfsSpawn := ⟨0, []⟩

/-- Modelled from the spec: the one append primitive shared by the four
add-operations of the builder (missing `xspawn.c`).  `allocOk` is the
allocation oracle: on success the action is linked at the tail (O(1) via the
tail pointer) and 0 is returned; on allocation failure -1 is returned and the
context is left exactly as it was. -/
def bfs_spawn_add (allocOk : Bool) (ctx : BfsSpawn) (a : SpawnAction) :
    Int × BfsSpawn :=
  if allocOk then (0, ⟨ctx.flags, ctx.actions ++ [a]⟩) else (-1, ctx)

/-- `bfs_spawn_addclose` (`xspawn.h`): append a close() action. -/
def bfs_spawn_addclose (allocOk : Bool) (ctx : BfsSpawn) (fd : Nat) :
    Int × BfsSpawn :=
  bfs_spawn_add allocOk ctx (.close fd)

/-- `bfs_spawn_adddup2` (`xspawn.h`): append a dup2() action. -/
def bfs_spawn_adddup2 (allocOk : Bool) (ctx : BfsSpawn) (oldfd newfd : Nat) :
    Int × BfsSpawn :=
  bfs_spawn_add allocOk ctx (.dup2 oldfd newfd)

/-- `bfs_spawn_addfchdir` (`xspawn.h`): append an fchdir() action. -/
def bfs_spawn_addfchdir (allocOk : Bool) (ctx : BfsSpawn) (fd : Nat) :
    Int × BfsSpawn :=
  bfs_spawn_add allocOk ctx (.fchdir fd)

/-- `bfs_spawn_addsetrlimit` (`xspawn.h`): append a setrlimit() action. -/
def bfs_spawn_addsetrlimit (allocOk : Bool) (ctx : BfsSpawn)
    (resource soft hard : Nat) : Int × BfsSpawn :=
  bfs_spawn_add allocOk ctx (.setrlimit resource soft hard)

/-- Modelled from the spec: the fixed-size payload a failing child writes to
the error channel (missing `xspawn.c`): which phase failed (action replay by
index, resolution, or exec) and the errno observed. -/
inductive ChildMessage where
  | actionFail (index errno : Nat)
  | resolveFail (errno : Nat)
  | execFail (errno : Nat)
deriving DecidableEq, Repr

/-- Modelled from the spec: the OS oracle seen by the forked child.  `sys i a`
is the outcome of attempting action `a` as the i-th replayed action (`none`
is success, `some e` is failure with errno `e`; the index determines the
descriptor-table history, so state-dependent outcomes are expressible).
`resolveErr` and `execErr` are the outcomes of executable resolution and of
the exec itself. -/
structure ChildEnv where
  sys : Nat → SpawnAction → Option Nat
  resolveErr : Option Nat
  execErr : Option Nat

/-- The index and errno of the first failing action at or after index `i`,
if any: the loop specification of the child's replay. -/
def firstFailureFrom (sys : Nat → SpawnAction → Option Nat) :
    Nat → List SpawnAction → Option (Nat × Nat)
  | _, [] => none
  | i, a :: rest =>
    match sys i a with
    | some e => some (i, e)
    | none => firstFailureFrom sys (i + 1) rest

/-- The first failing action of the whole sequence. -/
def firstFailure (sys : Nat → SpawnAction → Option Nat)
    (A : List SpawnAction) : Option (Nat × Nat) :=
  firstFailureFrom sys 0 A

/-- Modelled from the spec: the child's replay loop (missing `xspawn.c`).
It walks the action list front to back; each action is attempted in turn and
the loop stops at the first failure.  Returns the actions actually attempted,
in order, together with the (index, errno) of the failure if one occurred. -/
def childReplay (sys : Nat → SpawnAction → Option Nat) :
    Nat → List SpawnAction → List SpawnAction × Option (Nat × Nat)
  | _, [] => ([], none)
  | i, a :: rest =>
    match sys i a with
    | some e => ([a], some (i, e))
    | none =>
      let r := childReplay sys (i + 1) rest
      (a :: r.1, r.2)

/-- What the forked child observably did: the actions it attempted in order,
the payload it wrote to the channel (`none` means it wrote nothing — the
write end vanished through close-on-exec because exec succeeded), and whether
the target program image replaced it. -/
structure ChildResult where
  attempted : List SpawnAction
  message : Option ChildMessage
  execed : Bool
deriving DecidableEq, Repr

/-- Modelled from the spec: the whole child-side code path of the missing
`xspawn.c`: replay the actions in insertion order; on the first action failure
write its (index, errno) and stop, touching neither later actions nor the
target program; otherwise resolve the executable and exec, reporting a
resolution or exec errno the same way; if exec succeeds no payload is ever
written. -/
def childRun (env : ChildEnv) (A : List SpawnAction) : ChildResult :=
  let r := childReplay env.sys 0 A
  match r.2 with
  | some (i, e) => ⟨r.1, some (.actionFail i e), false⟩
  | none =>
    match env.resolveErr with
    | some e => ⟨r.1, some (.resolveFail e), false⟩
    | none =>
      match env.execErr with
      | some e => ⟨r.1, some (.execFail e), false⟩
      | none => ⟨r.1, none, true⟩

/-- The structured spawn outcome of the spec's error taxonomy: a live pid, or
the precise failing phase with its OS error code. -/
inductive SpawnOutcome where
  | pid (p : Nat)
  | forkError (errno : Nat)
  | readError (errno : Nat)
  | actionError (index errno : Nat)
  | resolveError (errno : Nat)
  | execError (errno : Nat)
deriving DecidableEq, Repr

/-- Decoding a channel payload into the structured failure the parent
returns. -/
def decodeMessage : ChildMessage → SpawnOutcome
  | .actionFail i e => .actionError i e
  | .resolveFail e => .resolveError e
  | .execFail e => .execError e

/-- Modelled from the spec: the OS oracle seen by one whole spawn call.
Extends the child oracle with the fork outcome (`none` means fork succeeded
and produced `childPid`) and the outcome of the parent's blocking channel
read (`none` means the read itself succeeded). -/
structure SpawnEnv extends ChildEnv where
  forkErr : Option Nat
  childPid : Nat
  readErr : Option Nat

/-- One spawn call, observably: the outcome handed to the caller, what the
child did (`none` when no child exists because fork failed), and the
parent-side protocol steps: whether the parent closed the channel's write
end, whether it read the channel, and whether it reaped the child. -/
structure SpawnResult where
  outcome : SpawnOutcome
  child : Option ChildResult
  closedWrite : Bool
  readChannel : Bool
  reaped : Bool
deriving DecidableEq, Repr

/-- Modelled from the spec: `bfs_spawn` of the missing `xspawn.c`, as the
structured protocol.  Open the close-on-exec error channel and fork; on fork
failure return a ForkError at once.  Otherwise the parent closes the write
end and blocks reading the read end: a failed read is the only other failure
of spawn itself; a zero-length read (the child exec'd, close-on-exec shut
the write end) yields the child's pid; a payload is decoded into the failing
phase and errno and the child, guaranteed to exit right after writing, is
reaped.  argv and envp only influence the exec outcome, so they live inside
the oracle. -/
def bfs_spawn_model (env : SpawnEnv) (A : List SpawnAction) : SpawnResult :=
  match env.forkErr with
  | some e => ⟨.forkError e, none, false, false, false⟩
  | none =>
    let c := childRun env.toChildEnv A
    match env.readErr with
    | some e => ⟨.readError e, some c, true, true, false⟩
    | none =>
      match c.message with
      | none => ⟨.pid env.childPid, some c, true, true, false⟩
      | some m => ⟨decodeMessage m, some c, true, true, true⟩

/-- Modelled from the spec: what a direct fork+exec with the given argv/envp
does — fork, and the child resolves and execs the target with no setup
actions at all, the outcome relayed over the same close-on-exec channel.
Written from the spec's words for the refinement comparison with
`bfs_spawn_model` on an empty plan. -/
def directChild (env : ChildEnv) : ChildResult :=
  match env.resolveErr with
  | some e => ⟨[], some (.resolveFail e), false⟩
  | none =>
    match env.execErr with
    | some e => ⟨[], some (.execFail e), false⟩
    | none => ⟨[], none, true⟩

/-- Modelled from the spec: the full direct fork+exec call, the comparison
point for spawning with an empty plan. -/
def directForkExec (env : SpawnEnv) : SpawnResult :=
  match env.forkErr with
  | some e => ⟨.forkError e, none, false, false, false⟩
  | none =>
    let c := directChild env.toChildEnv
    match env.readErr with
    | some e => ⟨.readError e, some c, true, true, false⟩
    | none =>
      match c.message with
      | none => ⟨.pid env.childPid, some c, true, true, false⟩
      | some m => ⟨decodeMessage m, some c, true, true, true⟩

/-- Modelled from the spec: the value actually crossing the public C
interface of `bfs_spawn` (`xspawn.h`: "The PID of the new process, or -1 on
error").  Whatever structured failure occurred, the caller receives the one
sentinel pid_t value -1 with only errno carrying the cause; on success it
receives the non-negative pid and errno is untouched (0 here). -/
def bfs_spawn_ret (env : SpawnEnv) (A : List SpawnAction) : Int × Nat :=
  match (bfs_spawn_model env A).outcome with
  | .pid p => ((p : Int), 0)
  | .forkError e => (-1, e)
  | .readError e => (-1, e)
  | .actionError _ e => (-1, e)
  | .resolveError e => (-1, e)
  | .execError e => (-1, e)

/-- Closing one descriptor number in a descriptor table. -/
def removeFd (n : Nat) (fds : List Nat) : List Nat :=
  fds.filter (fun m => m != n)

/-- Modelled from the spec: one spawn call as a transformer of the parent's
own state — its open-descriptor table and the plan.  pipe_cloexec opens two
fresh descriptors for the private channel; on fork failure both are closed
again; otherwise the parent closes the write end after forking and the read
end after the rendezvous, and the plan is only ever read.  Returns the
outcome together with the plan and descriptor table as they stand when spawn
returns. -/
def bfs_spawn_stateful (env : SpawnEnv) (ctx : BfsSpawn) (fds : List Nat) :
    SpawnOutcome × BfsSpawn × List Nat :=
  let m := fds.foldr max 0
  let rfd := m + 1
  let wfd := m + 2
  let fds1 := fds ++ [rfd, wfd]
  match env.forkErr with
  | some e => (.forkError e, ctx, removeFd rfd (removeFd wfd fds1))
  | none =>
    let fds2 := removeFd wfd fds1
    let c := childRun env.toChildEnv ctx.actions
    let out :=
      match env.readErr with
      | some e => SpawnOutcome.readError e
      | none =>
        match c.message with
        | none => SpawnOutcome.pid env.childPid
        | some msg => decodeMessage msg
    (out, ctx, removeFd rfd fds2)

/-- A descriptor with its close-on-exec attribute. -/
structure Fd where
  id : Nat
  cloexec : Bool
deriving DecidableEq, Repr

/-- Modelled from the spec: `pipe_cloexec` of the missing `util.c`
(`util.h`: "Like pipe(), but set the FD_CLOEXEC flag"): both returned
descriptors, the read end and the write end, carry the close-on-exec flag. -/
def pipe_cloexec (rId wId : Nat) : Fd × Fd :=
  (⟨rId, true⟩, ⟨wId, true⟩)

/-- The glossary's close-on-exec semantics: a successful exec closes every
descriptor whose close-on-exec flag is set, so the new program image keeps
exactly the others. -/
def execImageFds (table : List Fd) : List Fd :=
  table.filter (fun f => !f.cloexec)

/-- Modelled from the spec: what the resolver can observe about one candidate
path: a regular executable file, an entry that exists but is no such file, a
permission error while probing, or a missing entry/directory. -/
inductive EntryStatus where
  | okExe
  | notExeFile
  | permDenied
  | noEnt
deriving DecidableEq, Repr

/-- A C string, embedded as its character sequence. -/
abbrev CStr := List Char

/-- Splitting a string at every occurrence of a separator character, the
shape `strchr`-driven C loops produce: `splitOnChar c s` never returns an
empty list, and splitting "/usr/bin:/bin" at the colon gives its two
directory entries. -/
def splitOnChar (c : Char) : CStr → List CStr
  | [] => [[]]
  | a :: rest =>
    let r := splitOnChar c rest
    if a == c then [] :: r
    else
      match r with
      | [] => [[a]]
      | g :: gs => (a :: g) :: gs

/-- Whether directory `d` holds a regular, executable file called `name`,
according to the filesystem oracle `fs`. -/
def isMatch (fs : CStr → EntryStatus) (name d : CStr) : Bool :=
  fs (d ++ '/' :: name) == .okExe

/-- Modelled from the spec: the resolver's scan over the directory list, in
listed order.  Every candidate whose probe does not report a regular
executable file — permission errors and missing directories included — is
skipped silently and the scan moves on.  Returns the candidates probed, in
order, and the first match if any. -/
def resolveScan (fs : CStr → EntryStatus) (name : CStr) :
    List CStr → List CStr × Option CStr
  | [] => ([], none)
  | d :: rest =>
    let cand := d ++ '/' :: name
    if fs cand == .okExe then ([cand], some cand)
    else
      let r := resolveScan fs name rest
      (cand :: r.1, r.2)

/-- Modelled from the spec: `bfs_spawn_resolve` of the missing `xspawn.c`
(declared in `xspawn.h`).  A name containing a path separator is returned
unchanged with no scan at all; a bare name is searched over the
colon-separated search path (the platform default substituting for an absent
PATH variable), and exhausting all candidates is the only way to fail.
Returns the probed candidates together with the resolved path (`none` is the
C NULL / not-found failure). -/
def bfs_spawn_resolve (fs : CStr → EntryStatus) (pathVar : Option CStr)
    (defaultPath : CStr) (exe : CStr) : List CStr × Option CStr :=
  if exe.contains '/' then ([], some exe)
  else resolveScan fs exe (splitOnChar ':' (pathVar.getD defaultPath))

/-- What one append operation of the builder must guarantee: either the
action was linked at the tail with return value 0, or the context is exactly
the original with return value -1; -1 happens precisely on allocation
failure; the flags and every previously added action survive either way. -/
def appendSpec (res : Int × BfsSpawn) (allocOk : Bool) (ctx : BfsSpawn)
    (a : SpawnAction) : Prop :=
  (res = (0, ⟨ctx.flags, ctx.actions ++ [a]⟩) ∨ res = (-1, ctx)) ∧
  (res.1 = -1 ↔ allocOk = false) ∧
  res.2.flags = ctx.flags ∧
  res.2.actions.take ctx.actions.length = ctx.actions

/-! ## Replay lemmas: the child's loop against its first-failure
specification -/

theorem firstFailureFrom_le (sys : Nat → SpawnAction → Option Nat)
    (A : List SpawnAction) :
    ∀ i j e, firstFailureFrom sys i A = some (j, e) → i ≤ j := by
  induction A with
  | nil => intro i j e h; simp [firstFailureFrom] at h
  | cons a rest ih =>
    intro i j e h
    cases hs : sys i a with
    | some e0 =>
      obtain ⟨h1, h2⟩ : i = j ∧ e0 = e := by
        simpa [firstFailureFrom, hs] using h
      omega
    | none =>
      have := ih (i + 1) j e (by simpa [firstFailureFrom, hs] using h)
      omega

theorem childReplay_snd (sys : Nat → SpawnAction → Option Nat)
    (A : List SpawnAction) :
    ∀ i, (childReplay sys i A).2 = firstFailureFrom sys i A := by
  induction A with
  | nil => intro i; rfl
  | cons a rest ih =>
    intro i
    cases hs : sys i a <;> simp [childReplay, firstFailureFrom, hs, ih]

theorem childReplay_fst_none (sys : Nat → SpawnAction → Option Nat)
    (A : List SpawnAction) :
    ∀ i, firstFailureFrom sys i A = none → (childReplay sys i A).1 = A := by
  induction A with
  | nil => intro i _; rfl
  | cons a rest ih =>
    intro i h
    cases hs : sys i a with
    | some e0 => simp [firstFailureFrom, hs] at h
    | none =>
      simp only [childReplay, hs]
      simp only [List.cons.injEq, true_and]
      exact ih (i + 1) (by simpa [firstFailureFrom, hs] using h)

theorem childReplay_fst_some (sys : Nat → SpawnAction → Option Nat)
    (A : List SpawnAction) :
    ∀ i j e, firstFailureFrom sys i A = some (j, e) →
      (childReplay sys i A).1 = A.take (j + 1 - i) := by
  induction A with
  | nil => intro i j e h; simp [firstFailureFrom] at h
  | cons a rest ih =>
    intro i j e h
    cases hs : sys i a with
    | some e0 =>
      obtain ⟨h1, h2⟩ : i = j ∧ e0 = e := by
        simpa [firstFailureFrom, hs] using h
      have ht : j + 1 - i = 1 := by omega
      simp [childReplay, hs, ht]
    | none =>
      have hr : firstFailureFrom sys (i + 1) rest = some (j, e) := by
        simpa [firstFailureFrom, hs] using h
      have hle : i + 1 ≤ j := firstFailureFrom_le sys rest (i + 1) j e hr
      have ht : j + 1 - i = (j + 1 - (i + 1)) + 1 := by omega
      rw [ht, List.take_succ_cons]
      simp [childReplay, hs, ih (i + 1) j e hr]

theorem childRun_attempted (env : ChildEnv) (A : List SpawnAction) :
    (childRun env A).attempted = (childReplay env.sys 0 A).1 := by
  rcases h : childReplay env.sys 0 A with ⟨att, o⟩
  cases o with
  | none =>
    cases h1 : env.resolveErr <;> cases h2 : env.execErr <;>
      simp [childRun, h, h1, h2]
  | some p =>
    rcases p with ⟨i, e⟩
    simp [childRun, h]

theorem childRun_fail (env : ChildEnv) (A : List SpawnAction) (i e : Nat)
    (h : firstFailure env.sys A = some (i, e)) :
    childRun env A = ⟨A.take (i + 1), some (.actionFail i e), false⟩ := by
  unfold firstFailure at h
  have ha : (childReplay env.sys 0 A).2 = some (i, e) :=
    (childReplay_snd env.sys A 0).trans h
  have hb : (childReplay env.sys 0 A).1 = A.take (i + 1) := by
    have := childReplay_fst_some env.sys A 0 i e h
    simpa using this
  have h2 : childReplay env.sys 0 A = (A.take (i + 1), some (i, e)) :=
    Prod.ext hb ha
  simp [childRun, h2]

/-- Claim C2: the child replays the plan's action sequence strictly in
insertion (FIFO) order — the attempted actions are always an initial segment
of the sequence in its own order, the whole sequence when nothing fails —
and on the first failing action it writes that action's (index, errno) to
the channel and terminates at once: no action after the failing one is
attempted and the target program is never exec'd. -/
theorem child_replay_fifo (env : ChildEnv) (A : List SpawnAction) :
    (firstFailure env.sys A = none → (childRun env A).attempted = A) ∧
    ∀ i e, firstFailure env.sys A = some (i, e) →
      childRun env A = ⟨A.take (i + 1), some (.actionFail i e), false⟩ := by
  constructor
  · intro h
    rw [childRun_attempted]
    exact childReplay_fst_none env.sys A 0 h
  · intro i e h
    exact childRun_fail env A i e h

/-- Concrete run of claim C2's theorem: with the second of three actions
failing with errno 13, the child attempts exactly the first two actions in
order, reports (1, 13), and never execs. -/
theorem child_replay_fifo_witness :
    childRun ⟨fun i _ => if i = 1 then some 13 else none, none, none⟩
        [SpawnAction.close 3, SpawnAction.dup2 4 1, SpawnAction.fchdir 5] =
      ⟨[SpawnAction.close 3, SpawnAction.dup2 4 1],
        some (.actionFail 1 13), false⟩ := by
  exact (child_replay_fifo _ _).2 1 13 (by decide)

/-- Claim C3: when an action of the plan fails in the child (fork and the
channel read themselves succeeding), spawn returns an ActionError carrying
the failing action's index and its errno, and the target program was never
exec'd. -/
theorem bfs_spawn_action_error (env : SpawnEnv) (A : List SpawnAction)
    (i e : Nat) (hfork : env.forkErr = none) (hread : env.readErr = none)
    (hfail : firstFailure env.sys A = some (i, e)) :
    (bfs_spawn_model env A).outcome = .actionError i e ∧
    (bfs_spawn_model env A).child = some (childRun env.toChildEnv A) ∧
    (childRun env.toChildEnv A).execed = false := by
  have hc := childRun_fail env.toChildEnv A i e hfail
  refine ⟨?_, ?_, ?_⟩ <;>
    simp [bfs_spawn_model, hfork, hread, hc, decodeMessage]

/-- Concrete run of claim C3's theorem: a plan whose only action fails with
errno 9 makes spawn return ActionError(0, 9). -/
theorem bfs_spawn_action_error_witness :
    (bfs_spawn_model ⟨⟨fun _ _ => some 9, none, none⟩, none, 7, none⟩
        [SpawnAction.close 3]).outcome = SpawnOutcome.actionError 0 9 := by
  exact (bfs_spawn_action_error ⟨⟨fun _ _ => some 9, none, none⟩, none, 7, none⟩
    [SpawnAction.close 3] 0 9 rfl rfl (by decide)).1

theorem decodeMessage_ne_fork_read (m : ChildMessage) :
    (∀ e, decodeMessage m ≠ .forkError e) ∧
    (∀ e, decodeMessage m ≠ .readError e) := by
  cases m <;> simp [decodeMessage]

/-- Claim C1: whenever fork succeeds the parent closes the channel's write
end and blocks reading the read end, and (the read itself succeeding)
exactly one of two outcomes happens: the child wrote nothing — a zero-length
read — and spawn returns the child's pid without reaping, or a payload
arrived and spawn decodes it into the failing phase and errno, reaps the
child, and returns that structured failure.  Spawn's own failures are
exactly fork failure and channel-read failure. -/
theorem bfs_spawn_rendezvous (env : SpawnEnv) (A : List SpawnAction) :
    (env.forkErr = none →
      (bfs_spawn_model env A).closedWrite = true ∧
      (bfs_spawn_model env A).readChannel = true ∧
      (env.readErr = none →
        ((childRun env.toChildEnv A).message = none ∧
          bfs_spawn_model env A =
            ⟨.pid env.childPid, some (childRun env.toChildEnv A),
              true, true, false⟩) ∨
        (∃ m, (childRun env.toChildEnv A).message = some m ∧
          bfs_spawn_model env A =
            ⟨decodeMessage m, some (childRun env.toChildEnv A),
              true, true, true⟩))) ∧
    (∀ e, (bfs_spawn_model env A).outcome = .forkError e ↔
      env.forkErr = some e) ∧
    (∀ e, (bfs_spawn_model env A).outcome = .readError e ↔
      (env.forkErr = none ∧ env.readErr = some e)) := by
  cases hf : env.forkErr with
  | some e0 =>
    refine ⟨fun h => Option.noConfusion h, fun e => ?_, fun e => ?_⟩ <;>
      simp [bfs_spawn_model, hf]
  | none =>
    cases hr : env.readErr with
    | some e0 =>
      refine ⟨fun _ => ⟨?_, ?_, fun hrn => Option.noConfusion hrn⟩,
          fun e => ?_, fun e => ?_⟩ <;>
        simp [bfs_spawn_model, hf, hr]
    | none =>
      cases hm : (childRun env.toChildEnv A).message with
      | none =>
        refine ⟨fun _ => ⟨?_, ?_, fun _ => Or.inl ⟨rfl, ?_⟩⟩,
            fun e => ?_, fun e => ?_⟩ <;>
          simp [bfs_spawn_model, hf, hr, hm]
      | some m =>
        refine ⟨fun _ => ⟨?_, ?_, fun _ => Or.inr ⟨m, rfl, ?_⟩⟩,
            fun e => ?_, fun e => ?_⟩
        · simp [bfs_spawn_model, hf, hr, hm]
        · simp [bfs_spawn_model, hf, hr, hm]
        · simp [bfs_spawn_model, hf, hr, hm]
        · simp [bfs_spawn_model, hf, hr, hm, (decodeMessage_ne_fork_read m).1 e]
        · simp [bfs_spawn_model, hf, hr, hm, (decodeMessage_ne_fork_read m).2 e]

/-- A rendezvous with a failing child, concretely: the payload case of claim
C1's theorem makes spawn reap the child. -/
theorem bfs_spawn_rendezvous_witness :
    (bfs_spawn_model ⟨⟨fun _ _ => some 9, none, none⟩, none, 7, none⟩
        [SpawnAction.close 3]).reaped = true := by
  rcases ((bfs_spawn_rendezvous ⟨⟨fun _ _ => some 9, none, none⟩, none, 7, none⟩
      [SpawnAction.close 3]).1 rfl).2.2 rfl with h | ⟨m, hm, heq⟩
  · exact absurd h.1 (by decide)
  · rw [heq]

theorem childRun_nil (env : ChildEnv) : childRun env [] = directChild env := by
  cases h1 : env.resolveErr <;> cases h2 : env.execErr <;>
    simp [childRun, childReplay, directChild, h1, h2]

/-- Claim C5: spawn on a plan with zero actions — a valid plan — behaves
identically, outcome for outcome and protocol step for protocol step, to a
direct fork+exec with the given argv/envp (which only influence the oracle
outcomes carried by the environment). -/
theorem bfs_spawn_empty_plan (env : SpawnEnv) :
    bfs_spawn_model env [] = directForkExec env := by
  cases hf : env.forkErr with
  | some e => simp [bfs_spawn_model, directForkExec, hf]
  | none =>
    cases hr : env.readErr with
    | some e => simp [bfs_spawn_model, directForkExec, hf, hr, childRun_nil]
    | none =>
      cases hm : (directChild env.toChildEnv).message <;>
        simp [bfs_spawn_model, directForkExec, hf, hr, childRun_nil, hm]

/-! ## The parent's own state across a spawn call -/

theorem mem_le_foldr_max (fds : List Nat) :
    ∀ x ∈ fds, x ≤ fds.foldr max 0 := by
  induction fds with
  | nil => intro x hx; cases hx
  | cons a l ih =>
    intro x hx
    rcases List.mem_cons.mp hx with hx | hx
    · subst hx; exact le_max_left _ _
    · exact le_trans (ih x hx) (le_max_right _ _)

theorem removeFd_of_not_mem (n : Nat) (l : List Nat)
    (h : ∀ x ∈ l, x ≠ n) : removeFd n l = l := by
  unfold removeFd
  apply List.filter_eq_self.mpr
  intro a ha
  simpa using h a ha

theorem close_both (fds : List Nat) (m : Nat) (hle : ∀ x ∈ fds, x ≤ m) :
    removeFd (m + 1) (removeFd (m + 2) (fds ++ [m + 1, m + 2])) = fds := by
  have h1 : removeFd (m + 2) (fds ++ [m + 1, m + 2]) = fds ++ [m + 1] := by
    unfold removeFd
    rw [List.filter_append]
    have hf : fds.filter (fun x => x != m + 2) = fds := by
      apply List.filter_eq_self.mpr
      intro a ha
      have := hle a ha
      simp
      omega
    rw [hf]
    have e1 : ((m + 1 : Nat) != (m + 2)) = true := by simp
    have e2 : ((m + 2 : Nat) != (m + 2)) = false := by simp
    simp [List.filter_cons, e1, e2]
  rw [h1]
  unfold removeFd
  rw [List.filter_append]
  have hf : fds.filter (fun x => x != m + 1) = fds := by
    apply List.filter_eq_self.mpr
    intro a ha
    have := hle a ha
    simp
    omega
  rw [hf]
  have e3 : ((m + 1 : Nat) != (m + 1)) = false := by simp
  simp [List.filter_cons, e3]

/-- Claim C6: spawn never mutates the plan — the plan object comes back to
the caller exactly as it went in, whatever the outcome, so one finished plan
can back any number of spawn calls — and the parent's own descriptor table
is unchanged when spawn returns: the only descriptors spawn touches are the
two fresh channel ends, and both are closed again on every path, the failing
ones included. -/
theorem bfs_spawn_frame (env : SpawnEnv) (ctx : BfsSpawn) (fds : List Nat) :
    (bfs_spawn_stateful env ctx fds).2.1 = ctx ∧
    (bfs_spawn_stateful env ctx fds).2.2 = fds := by
  have hc := close_both fds (fds.foldr max 0) (mem_le_foldr_max fds)
  cases hf : env.forkErr <;>
    simp [bfs_spawn_stateful, hf, hc]

/-- Claim C8: every append operation of the builder — addclose, adddup2,
addfchdir, addsetrlimit — either links its action at the tail returning 0,
or fails returning -1, and -1 happens exactly on allocation failure; in both
cases the flags and all previously added actions are intact, so a partially
built plan stays valid and usable. -/
theorem bfs_spawn_append_ops (allocOk : Bool) (ctx : BfsSpawn)
    (fd oldfd newfd resource soft hard : Nat) :
    appendSpec (bfs_spawn_addclose allocOk ctx fd) allocOk ctx (.close fd) ∧
    appendSpec (bfs_spawn_adddup2 allocOk ctx oldfd newfd) allocOk ctx
      (.dup2 oldfd newfd) ∧
    appendSpec (bfs_spawn_addfchdir allocOk ctx fd) allocOk ctx (.fchdir fd) ∧
    appendSpec (bfs_spawn_addsetrlimit allocOk ctx resource soft hard) allocOk
      ctx (.setrlimit resource soft hard) := by
  have key : ∀ a : SpawnAction,
      appendSpec (bfs_spawn_add allocOk ctx a) allocOk ctx a := by
    intro a
    cases allocOk <;>
      simp [appendSpec, bfs_spawn_add, List.take_left, List.take_length]
  exact ⟨key _, key _, key _, key _⟩

/-- Claim C9: at the public C interface every failure of every phase — fork,
action replay, resolution, exec, channel read — collapses to the one
sentinel pid_t value -1, the cause surviving only as an errno; a success is
the child's non-negative pid; no structured value carrying the phase or
action index crosses the interface. -/
theorem bfs_spawn_c_interface (env : SpawnEnv) (A : List SpawnAction) :
    (∃ p : Nat, (bfs_spawn_ret env A).1 = (p : Int) ∧
      (bfs_spawn_model env A).outcome = .pid p ∧
      0 ≤ (bfs_spawn_ret env A).1) ∨
    ((bfs_spawn_ret env A).1 = -1 ∧
      ∀ p : Nat, (bfs_spawn_model env A).outcome ≠ .pid p) := by
  cases h : (bfs_spawn_model env A).outcome with
  | pid p =>
    exact Or.inl ⟨p, by simp [bfs_spawn_ret, h], by simp [h],
      by simp [bfs_spawn_ret, h]⟩
  | forkError e =>
    exact Or.inr ⟨by simp [bfs_spawn_ret, h], by simp [h]⟩
  | readError e =>
    exact Or.inr ⟨by simp [bfs_spawn_ret, h], by simp [h]⟩
  | actionError i e =>
    exact Or.inr ⟨by simp [bfs_spawn_ret, h], by simp [h]⟩
  | resolveError e =>
    exact Or.inr ⟨by simp [bfs_spawn_ret, h], by simp [h]⟩
  | execError e =>
    exact Or.inr ⟨by simp [bfs_spawn_ret, h], by simp [h]⟩

/-- Claim C10: both descriptors handed out by pipe_cloexec — the read end
and the write end of the error channel — carry the close-on-exec flag, so
after a successful exec neither end survives into the new program image,
whatever else was in the descriptor table. -/
theorem pipe_cloexec_both_ends (rId wId : Nat) (table : List Fd) :
    (pipe_cloexec rId wId).1.cloexec = true ∧
    (pipe_cloexec rId wId).2.cloexec = true ∧
    (pipe_cloexec rId wId).1 ∉
      execImageFds (table ++ [(pipe_cloexec rId wId).1, (pipe_cloexec rId wId).2]) ∧
    (pipe_cloexec rId wId).2 ∉
      execImageFds (table ++ [(pipe_cloexec rId wId).1, (pipe_cloexec rId wId).2]) := by
  refine ⟨rfl, rfl, ?_, ?_⟩ <;>
    simp [pipe_cloexec, execImageFds, List.mem_filter]

/-! ## The resolver -/

theorem resolveScan_snd (fs : CStr → EntryStatus) (name : CStr) :
    ∀ dirs : List CStr, (resolveScan fs name dirs).2 =
      (dirs.find? (isMatch fs name)).map (fun d => d ++ '/' :: name) := by
  intro dirs
  induction dirs with
  | nil => rfl
  | cons d rest ih =>
    by_cases h : (fs (d ++ '/' :: name) == EntryStatus.okExe) = true
    · simp [resolveScan, List.find?, isMatch, h]
    · have h2 : (fs (d ++ '/' :: name) == EntryStatus.okExe) = false := by
        simpa using h
      simp [resolveScan, List.find?, isMatch, h2, ih]

/-- Claim C4: for a bare command name (no path separator) the resolver scans
the colon-split directory entries of the search path (the platform default
substituting for an absent PATH variable) in listed order and returns
dir/name for the very first directory holding a regular, executable file of
that name; every non-matching probe — permission errors and missing
directories included — is skipped silently and never masks a later match;
the resolver comes back empty exactly when no candidate at all matched. -/
theorem bfs_spawn_resolve_first_match (fs : CStr → EntryStatus)
    (pathVar : Option CStr) (defaultPath exe : CStr)
    (hbare : exe.contains '/' = false) :
    (bfs_spawn_resolve fs pathVar defaultPath exe).2 =
      (((splitOnChar ':' (pathVar.getD defaultPath)).find?
          (isMatch fs exe)).map (fun d => d ++ '/' :: exe)) ∧
    ((bfs_spawn_resolve fs pathVar defaultPath exe).2 = none ↔
      ∀ d ∈ splitOnChar ':' (pathVar.getD defaultPath),
        isMatch fs exe d = false) := by
  have hr : bfs_spawn_resolve fs pathVar defaultPath exe =
      resolveScan fs exe (splitOnChar ':' (pathVar.getD defaultPath)) := by
    unfold bfs_spawn_resolve
    rw [if_neg (by rw [hbare]; simp)]
  constructor
  · rw [hr, resolveScan_snd]
  · rw [hr, resolveScan_snd, Option.map_eq_none', List.find?_eq_none]
    constructor
    · intro h d hd
      simpa using h d hd
    · intro h d hd
      simp [h d hd]

/-- Concrete run of claim C4's theorem, the spec's own example with a
permission error thrown in: resolving "ls" against "/usr/bin:/bin" where
probing /usr/bin/ls reports a permission error and /bin/ls is a regular
executable yields /bin/ls — the earlier error does not mask the later
match. -/
theorem bfs_spawn_resolve_first_match_witness :
    (bfs_spawn_resolve
        (fun s => if s = "/bin/ls".data then EntryStatus.okExe
          else if s = "/usr/bin/ls".data then EntryStatus.permDenied
          else EntryStatus.noEnt)
        (some ("/usr/bin:/bin".data)) ("/fallback".data) ("ls".data)).2 =
      some ("/bin/ls".data) := by
  have h := bfs_spawn_resolve_first_match
      (fun s => if s = "/bin/ls".data then EntryStatus.okExe
        else if s = "/usr/bin/ls".data then EntryStatus.permDenied
        else EntryStatus.noEnt)
      (some ("/usr/bin:/bin".data)) ("/fallback".data) ("ls".data) (by decide)
  rw [h.1]
  decide

/-- Claim C7: a name that already contains a path separator is returned
unchanged, and the resolver probes no directory at all. -/
theorem bfs_spawn_resolve_slash (fs : CStr → EntryStatus)
    (pathVar : Option CStr) (defaultPath exe : CStr)
    (hslash : exe.contains '/' = true) :
    bfs_spawn_resolve fs pathVar defaultPath exe = ([], some exe) := by
  unfold bfs_spawn_resolve
  rw [if_pos hslash]

/-- Concrete run of claim C7's theorem: resolving "./foo" returns "./foo"
itself with an empty probe trace. -/
theorem bfs_spawn_resolve_slash_witness :
    bfs_spawn_resolve (fun _ => EntryStatus.noEnt) none [] ("./foo".data) =
      ([], some ("./foo".data)) := by
  exact bfs_spawn_resolve_slash _ _ _ _ (by decide)

end BfsXspawn
